import Mathlib

/-!
Shallow embedding of the `async-supervisor` crate's `Supervisor` state machine
(`src/supervisor.rs`, with the shared types of `src/lib.rs` and `src/start.rs`).

Modelling decisions:
* `DeviceID` (the backplane's child identity) and `Fault` (an opaque
  abnormal-termination payload) are modelled as `Nat`.
* A `Line` (send-only handle to a child) is observable in the supervisor only
  through `line.device_id()` and `line.send(Shutdown(my_id))`; we model a
  stored `Line` by its `DeviceID` and record sends in an effect trace.
* Durations are opaque to the state machine (timers are raced by the runtime);
  `Grace.Fixed` carries a `Nat` stand-in.
* The child start functions (`Spec.start.start`, an opaque boxed closure raced
  against a grace timer in `src/start.rs`) and the rate limiter
  (`simple_rate_limit::RateLimiter::check`, an external black box) are
  modelled by an environment `Env`: the n-th `start_link` invocation observes
  `env.startResults n` / obtains the fresh id `env.freshIds n`, and the n-th
  `limiter.check()` call observes `env.limiter n`.  Counters `starts` and
  `checks` in the machine state index these streams.
* Rust `panic!` sites (`Vec` indexing out of bounds, `Option::unwrap` on
  `None`, `Vec::drain` with a start index past the end) are modelled by the
  functions returning `none`.
* Observable actions (invoking a child start function, sending `Shutdown` to a
  child, a limiter check, `device.disconnect`) are recorded in a `List Effect`
  returned alongside the new state.
-/

/-- Backplane child identity (`async_backplane::DeviceID`), opaque. -/
abbrev DeviceID := Nat

/-- Opaque abnormal-termination payload (`async_backplane::Fault`). -/
abbrev Fault := Nat

/-- `Grace` from `src/lib.rs`: time allowed for a startup/shutdown. -/
inductive Grace
| Fixed (d : Nat)
| Forever
deriving DecidableEq, Repr

/-- `Haste` from `src/lib.rs`: how patiently to shut a task down. -/
inductive Haste
| Gracefully (g : Grace)
| Quickly
deriving DecidableEq, Repr

/-- `Started` from `src/lib.rs`: outcome of a successful child startup. -/
inductive Started
| Completed
| Running
deriving DecidableEq, Repr

/-- `Restart` from `src/lib.rs`: when the supervisor restarts a child. -/
inductive Restart
| Never
| Failed
| Always
deriving DecidableEq, Repr

/-- `RecoveryLogic` from `src/lib.rs`. -/
inductive RecoveryLogic
| Isolated
| CascadeNewer
| CascadeAll
deriving DecidableEq, Repr

/-- `StartError` from `src/start.rs`. -/
inductive StartError
| Fault (f : Fault)
| Timeout
deriving DecidableEq, Repr

/-- `SupervisionError` from `src/lib.rs`. -/
inductive SupervisionError
| Shutdown (id : DeviceID)
| StartupFailed (index : Nat) (e : StartError)
| Throttled
deriving DecidableEq, Repr

/-- The two `Crash` constructors of `async_backplane` used by the crate. -/
inductive Crash
| Error (e : SupervisionError)
| PowerOff (id : DeviceID)
deriving DecidableEq, Repr

/-- The two backplane messages the watch loop handles (`Message::Shutdown`,
`Message::Disconnected`). -/
inductive Message
| Shutdown (id : DeviceID)
| Disconnected (id : DeviceID) (result : Option Fault)
deriving DecidableEq, Repr

/-- Observable actions of the supervisor, in program order. -/
inductive Effect
| check (ok : Bool)
| startChild (index : Nat) (id : DeviceID)
| sendShutdown (index : Nat) (target : DeviceID) (requester : DeviceID)
| disconnect
deriving DecidableEq, Repr

/-- `Spec` from `src/lib.rs`.  The `start` field's closure is opaque; its
observable behaviour lives in `Env`, so only the policy fields are kept. -/
structure Spec where
  restart : Restart
  shutdown : Haste
deriving DecidableEq, Repr

/-- The supervisor's own state (`Supervisor` struct of `src/supervisor.rs`)
plus the counters indexing the environment streams. -/
structure M where
  logic : RecoveryLogic
  specs : List Spec
  states : List (Option DeviceID)
  starts : Nat
  checks : Nat
deriving DecidableEq, Repr

deriving instance DecidableEq for Except

/-- Environment: opaque child start functions, fresh ids from `Device::new`,
and the black-box rate limiter. -/
structure Env where
  freshIds : Nat → DeviceID
  startResults : Nat → Except StartError Started
  limiter : Nat → Bool

/-- `Supervisor::start_link` (src/supervisor.rs:65-79): create a fresh device,
monitor-link it, run `specs[index].start.start(d)`, and convert the outcome.
`none` models the Rust panic when `index` is out of `specs`' bounds. -/
def start_link (env : Env) (m : M) (index : Nat) :
    Option (Except Crash (Option DeviceID) × M × List Effect) :=
  match m.specs.get? index with
  | none => none
  | some _ =>
    let id := env.freshIds m.starts
    let m1 : M := { m with starts := m.starts + 1 }
    match env.startResults m.starts with
    | .error e =>
      some (.error (.Error (.StartupFailed index e)), m1, [.startChild index id])
    | .ok .Completed => some (.ok none, m1, [.startChild index id])
    | .ok .Running => some (.ok (some id), m1, [.startChild index id])

/-- Loop body of `Supervisor::start_up` (src/supervisor.rs:51-63), with fuel
`n` for the remaining iterations: on `Ok(line)` push onto `states`, on error
return it. -/
def start_up_go (env : Env) : M → Nat → Nat → Option (Except Crash Unit × M × List Effect)
  | m, _, 0 => some (.ok (), m, [])
  | m, index, n+1 =>
    match start_link env m index with
    | none => none
    | some (.error c, m1, t1) => some (.error c, m1, t1)
    | some (.ok line, m1, t1) =>
      (start_up_go env { m1 with states := m1.states ++ [line] } (index+1) n).map
        fun r => (r.1, r.2.1, t1 ++ r.2.2)

/-- `Supervisor::start_up` (src/supervisor.rs:51-63): `for index in
start_index..specs.len()`. -/
def start_up (env : Env) (m : M) (startIndex : Nat) :
    Option (Except Crash Unit × M × List Effect) :=
  start_up_go env m startIndex (m.specs.length - startIndex)

/-- Iteration of `Supervisor::start_shut_down` (src/supervisor.rs:210-236)
over the drained, enumerated, reversed states.  Every `Haste` arm sends
`Shutdown(my_id)` on the child's line; the arms differ only in the waiting
set and timers, which never touch the supervisor state and are collected by
the mailbox/timer race in `shut_down` (src/supervisor.rs:177-207).  `none`
models the panic of `self.specs[index].shutdown` when `index` is out of
bounds. -/
def start_shut_down_go (specs : List Spec) (myId : DeviceID) :
    List (Nat × Option DeviceID) → Option (List Effect)
  | [] => some []
  | (_, none) :: rest => start_shut_down_go specs myId rest
  | (index, some id) :: rest =>
    match specs.get? index with
    | none => none
    | some _ =>
      (start_shut_down_go specs myId rest).map
        fun t => Effect.sendShutdown index id myId :: t

/-- `Supervisor::shut_down` (src/supervisor.rs:172-208): drain
`states[startIndex..]`, iterate it enumerated (offset by `startIndex`, as in
`i + start_index`) in reverse, sending `Shutdown(my_id)` to each live child;
then collect terminations/deadlines from the mailbox and timers, which does
not modify `specs`/`states`.  `none` models `drain`'s panic when
`startIndex > states.len()` and the indexing panic inside the loop. -/
def shut_down (myId : DeviceID) (m : M) (startIndex : Nat) :
    Option (M × List Effect) :=
  if startIndex ≤ m.states.length then
    (start_shut_down_go m.specs myId
        ((List.enumFrom startIndex (m.states.drop startIndex)).reverse)).map
      fun t => ({ m with states := m.states.take startIndex }, t)
  else none

/-- `Supervisor::restart` (src/supervisor.rs:138-170): one limiter check;
on denial `Err(Crash::Error(Throttled))`; on admission apply the recovery
logic. -/
def restart (env : Env) (myId : DeviceID) (m : M) (index : Nat) :
    Option (Except Crash Unit × M × List Effect) :=
  if env.limiter m.checks then
    let m0 : M := { m with checks := m.checks + 1 }
    match m0.logic with
    | .Isolated =>
      match start_link env m0 index with
      | none => none
      | some (.ok line, m1, t1) =>
        if index < m1.states.length then
          some (.ok (), { m1 with states := m1.states.set index line },
            Effect.check true :: t1)
        else none
      | some (.error c, m1, t1) =>
        (shut_down myId m1 0).map
          fun r => (.error c, r.1, Effect.check true :: (t1 ++ r.2))
    | .CascadeNewer =>
      match shut_down myId m0 (index + 1) with
      | none => none
      | some (m1, t1) =>
        (start_up env m1 index).map
          fun r => (r.1, r.2.1, Effect.check true :: (t1 ++ r.2.2))
    | .CascadeAll =>
      match shut_down myId m0 0 with
      | none => none
      | some (m1, t1) =>
        (start_up env m1 0).map
          fun r => (r.1, r.2.1, Effect.check true :: (t1 ++ r.2.2))
  else
    some (.error (.Error .Throttled), { m with checks := m.checks + 1 },
      [.check false])

/-- `Supervisor::handle_restart` (src/supervisor.rs:120-136):
`states[index].take().unwrap()`, then dispatch on `specs[index].restart`.
`none` models the indexing panics and the `unwrap` panic. -/
def handle_restart (env : Env) (myId : DeviceID) (m : M) (index : Nat)
    (result : Option Fault) : Option (Except Crash Unit × M × List Effect) :=
  match m.states.get? index with
  | none => none
  | some none => none
  | some (some _) =>
    let m1 : M := { m with states := m.states.set index none }
    match m1.specs.get? index with
    | none => none
    | some sp =>
      match sp.restart with
      | .Never => some (.ok (), m1, [])
      | .Always => restart env myId m1 index
      | .Failed =>
        if result.isSome then restart env myId m1 index
        else some (.ok (), m1, [])

/-- The scan of `Supervisor::disconnected` (src/supervisor.rs:109-116): first
index whose state is `Some(line)` with `line.device_id() == id`. -/
def matchIndex (states : List (Option DeviceID)) (id : DeviceID) : Option Nat :=
  states.findIdx? (fun s => s == some id)

/-- `Supervisor::disconnected` (src/supervisor.rs:102-118): on a match run
`handle_restart`, otherwise do nothing and keep watching. -/
def disconnected (env : Env) (myId : DeviceID) (m : M) (id : DeviceID)
    (result : Option Fault) : Option (Except Crash Unit × M × List Effect) :=
  match matchIndex m.states id with
  | some index => handle_restart env myId m index result
  | none => some (.ok (), m, [])

/-- `Supervisor::watch` (src/supervisor.rs:81-100) over a finite mailbox
prefix: `Shutdown(id)` disconnects and returns `Err(Crash::PowerOff(id))`;
`Disconnected` dispatches to `disconnected`, propagating crashes; an
exhausted mailbox returns `Ok(())`. -/
def watch (env : Env) (myId : DeviceID) :
    M → List Message → Option (Except Crash Unit × M × List Effect)
  | m, [] => some (.ok (), m, [])
  | m, .Shutdown id :: _ => some (.error (.PowerOff id), m, [.disconnect])
  | m, .Disconnected id result :: rest =>
    match disconnected env myId m id result with
    | none => none
    | some (.error c, m1, t1) => some (.error c, m1, t1)
    | some (.ok _, m1, t1) =>
      (watch env myId m1 rest).map fun r => (r.1, r.2.1, t1 ++ r.2.2)

/-- `Supervisor::supervise` (src/supervisor.rs:38-49): `start_up(0)`; on
failure `shut_down(0)`, `disconnect`, and surface the crash; on success run
the watch loop. -/
def supervise (env : Env) (myId : DeviceID) (m : M) (msgs : List Message) :
    Option (Except Crash Unit × M × List Effect) :=
  match start_up env m 0 with
  | none => none
  | some (.error c, m1, t1) =>
    (shut_down myId m1 0).map
      fun r => (.error c, r.1, t1 ++ r.2 ++ [.disconnect])
  | some (.ok _, m1, t1) =>
    (watch env myId m1 msgs).map fun r => (r.1, r.2.1, t1 ++ r.2.2)

/-- Indices of the `sendShutdown` effects of a trace, in order. -/
def sentIndices (t : List Effect) : List Nat :=
  t.filterMap fun e =>
    match e with
    | .sendShutdown i _ _ => some i
    | _ => none

/-- `true` exactly on `sendShutdown` effects. -/
def isSend (e : Effect) : Bool :=
  match e with
  | .sendShutdown _ _ _ => true
  | _ => false

/-- `true` exactly on `check` effects. -/
def isCheck (e : Effect) : Bool :=
  match e with
  | .check _ => true
  | _ => false

/-! ### Concrete scenarios used by the counterexample/bug theorems -/

/-- Two child specs, both `Restart::Always`, shut down `Quickly`. -/
def specsAA : List Spec := [⟨.Always, .Quickly⟩, ⟨.Always, .Quickly⟩]

/-- Environment where every start succeeds with `Running`, fresh ids are
`100, 101, ...`, and the limiter always admits. -/
def envRun : Env := ⟨fun n => 100 + n, fun _ => .ok .Running, fun _ => true⟩

/-- Environment as `envRun`, except the third `start_link` invocation times
out. -/
def envTO : Env :=
  ⟨fun n => 100 + n,
   fun n => if n == 2 then .error .Timeout else .ok .Running,
   fun _ => true⟩

/-- A `CascadeNewer` supervisor over `specsAA`, just after a startup that
produced children `10` (index 0) and `11` (index 1). -/
def mCN : M := ⟨.CascadeNewer, specsAA, [some 10, some 11], 2, 0⟩

/-- A fresh `CascadeNewer` supervisor over `specsAA`, before startup. -/
def mInit : M := ⟨.CascadeNewer, specsAA, [], 0, 0⟩

/-- An `Isolated` supervisor with a single live graceful child `10`. -/
def mIso1 : M := ⟨.Isolated, [⟨.Always, .Gracefully .Forever⟩], [some 10], 1, 0⟩

/-- Environment whose rate limiter always denies. -/
def envDeny : Env := ⟨fun n => 100 + n, fun _ => .ok .Running, fun _ => false⟩

/-- Three specs with a live child at indices 0 and 2 and an idle slot at 1. -/
def mW6 : M :=
  ⟨.Isolated, [⟨.Always, .Quickly⟩, ⟨.Never, .Quickly⟩, ⟨.Always, .Gracefully (.Fixed 5)⟩],
   [some 5, none, some 7], 3, 0⟩

/-- `true` exactly on `startChild` effects. -/
def isStart (e : Effect) : Bool :=
  match e with
  | .startChild _ _ => true
  | _ => false

/-- C1.  The claim says every recovery action preserves `|states| == |specs|`.
The code's `start_up` pushes restarted children onto the end of `states`
instead of writing them at their index, so a `CascadeNewer` recovery violates
the claim: from `|states| = |specs| = 2`, one admitted restart of index 1
leaves `|states| = 3` while `|specs| = 2`.  Processing a further termination
of the pushed child then indexes `specs` out of bounds — a Rust panic,
modelled as `none`. -/
theorem c1_cascade_newer_breaks_length :
    watch envRun 0 mCN [Message.Disconnected 11 (some 0)] =
      some (.ok (), { mCN with states := [some 10, none, some 102], starts := 3, checks := 1 },
        [.check true, .startChild 1 102])
    ∧ ([some 10, none, some 102] : List (Option DeviceID)).length = 3
    ∧ mCN.specs.length = 2
    ∧ mCN.states.length = mCN.specs.length
    ∧ watch envRun 0 mCN [Message.Disconnected 11 (some 0), Message.Disconnected 102 (some 0)] =
        none := by
  decide

/-- C2.  The claim says a restarted child is tracked at the same index as
before.  In the same `CascadeNewer` run as `c1`: before the restart the child
of spec 1 was tracked at `states[1]`; after the restart `states[1]` is a
permanent `none` and the new incarnation (id `102 = envRun.freshIds 2`) is
tracked at `states[2]` — the child's index moved from 1 to 2. -/
theorem c2_cascade_newer_moves_index :
    mCN.states.get? 1 = some (some 11)
    ∧ (watch envRun 0 mCN [Message.Disconnected 11 (some 0)]).map
        (fun r => (r.2.1.states.get? 1, r.2.1.states.get? 2)) =
      some (some none, some (some 102))
    ∧ envRun.freshIds 2 = 102 := by
  decide

/-- C3.  The claim says a `Shutdown(requester)` event makes the supervisor run
`shut_down(0)`, then disconnect, then return `PowerOff(requester)`.  The
code's `watch` merely disconnects and returns `PowerOff`: with a live child
at index 0, the trace is exactly `[disconnect]` — no `Shutdown` is ever sent
to the child. -/
theorem c3_shutdown_skips_teardown :
    watch envRun 0 mIso1 [Message.Shutdown 99] =
      some (.error (.PowerOff 99), mIso1, [.disconnect])
    ∧ mIso1.states.get? 0 = some (some 10)
    ∧ (watch envRun 0 mIso1 [Message.Shutdown 99]).map (fun r => r.2.2.filter isSend) =
        some [] := by
  decide

/-- C4.  The claim says every `StartError` — including one inside a restart
attempt's own `start_up` — is followed by a teardown of the already-started
children via `shut_down`, then a disconnect, before `StartupFailed` reaches
the caller of `supervise`.  Run `supervise` on a fresh `CascadeNewer`
supervisor whose cascading restart times out: `StartupFailed(1, Timeout)` is
surfaced, but the surviving child `100` is still tracked at index 0, the
trace contains no `sendShutdown` for it, and no `disconnect` at all — the
teardown-then-disconnect sequence exists only on the initial-startup path. -/
theorem c4_restart_failure_skips_teardown :
    supervise envTO 0 mInit [Message.Disconnected 101 (some 0)] =
      some (.error (.Error (.StartupFailed 1 .Timeout)),
        { mInit with states := [some 100, none], starts := 3, checks := 1 },
        [.startChild 0 100, .startChild 1 101, .check true, .startChild 1 102])
    ∧ ([Effect.startChild 0 100, .startChild 1 101, .check true, .startChild 1 102].filter
        isSend) = []
    ∧ Effect.disconnect ∉
        ([Effect.startChild 0 100, .startChild 1 101, .check true, .startChild 1 102] :
          List Effect)
    ∧ ([some 100, none] : List (Option DeviceID)).get? 0 = some (some 100) := by
  decide

/-! ### Support lemmas -/

/-- A successful `findIdx?` returns an index whose element satisfies the
predicate. -/
theorem findIdx?_some_get {α : Type} (p : α → Bool) (l : List α) (i : Nat)
    (h : l.findIdx? p = some i) : ∃ a, l.get? i = some a ∧ p a = true := by
  induction l generalizing i with
  | nil => simp at h
  | cons x xs ih =>
    rw [List.findIdx?_cons] at h
    by_cases hp : p x
    · simp only [hp, if_true, Option.some.injEq] at h
      subst h
      exact ⟨x, rfl, hp⟩
    · simp only [hp, if_false, Bool.false_eq_true] at h
      rw [List.findIdx?_succ] at h
      obtain ⟨j, hj, hji⟩ := Option.map_eq_some'.mp h
      subst hji
      obtain ⟨a, ha, hpa⟩ := ih j hj
      exact ⟨a, by simpa using ha, hpa⟩

/-- Shape of a successful `start_link`: it consumes one environment start,
emits exactly one `startChild` effect, and leaves every other component of
the supervisor state unchanged. -/
theorem start_link_shape (env : Env) (m : M) (index : Nat) (r : Except Crash (Option DeviceID))
    (m1 : M) (t : List Effect) (h : start_link env m index = some (r, m1, t)) :
    m1 = { m with starts := m.starts + 1 } ∧
    t = [Effect.startChild index (env.freshIds m.starts)] := by
  unfold start_link at h
  cases hs : m.specs.get? index with
  | none => rw [hs] at h; exact absurd h (by simp)
  | some sp =>
    rw [hs] at h
    cases hr : env.startResults m.starts with
    | error e => rw [hr] at h; simp at h; exact ⟨h.2.1.symm, h.2.2.symm⟩
    | ok st =>
      rw [hr] at h
      cases st with
      | Completed => simp at h; exact ⟨h.2.1.symm, h.2.2.symm⟩
      | Running => simp at h; exact ⟨h.2.1.symm, h.2.2.symm⟩

/-- A successful teardown pass produces exactly one `sendShutdown` per live
entry of the iterated list, in iteration order. -/
theorem start_shut_down_go_eq (specs : List Spec) (myId : DeviceID)
    (L : List (Nat × Option DeviceID)) (t : List Effect)
    (h : start_shut_down_go specs myId L = some t) :
    t = L.filterMap (fun p => p.2.map fun id => Effect.sendShutdown p.1 id myId) := by
  induction L generalizing t with
  | nil =>
    simp only [start_shut_down_go, Option.some.injEq] at h
    simp [h.symm]
  | cons p rest ih =>
    obtain ⟨i, x⟩ := p
    cases x with
    | none =>
      simp only [start_shut_down_go] at h
      simpa using ih t h
    | some id =>
      simp only [start_shut_down_go] at h
      cases hs : specs.get? i with
      | none => rw [hs] at h; simp at h
      | some sp =>
        rw [hs] at h
        obtain ⟨t2, ht2, rfl⟩ := Option.map_eq_some'.mp h
        simp [List.filterMap_cons, ih t2 ht2]

/-- Shape of a successful `shut_down`: the tail of `states` is drained, the
rest of the supervisor state is untouched, and every emitted effect is a
`sendShutdown`. -/
theorem shut_down_shape (myId : DeviceID) (m : M) (s : Nat) (m2 : M) (t : List Effect)
    (h : shut_down myId m s = some (m2, t)) :
    m2 = { m with states := m.states.take s } ∧ s ≤ m.states.length ∧
    ∀ e ∈ t, isSend e = true := by
  unfold shut_down at h
  split at h
  case isTrue hs =>
    obtain ⟨t0, ht0, heq⟩ := Option.map_eq_some'.mp h
    simp only [Prod.mk.injEq] at heq
    obtain ⟨heq1, heq2⟩ := heq
    refine ⟨heq1.symm, hs, ?_⟩
    subst heq2
    intro e he
    rw [start_shut_down_go_eq _ _ _ _ ht0] at he
    obtain ⟨p, hp, hfp⟩ := List.mem_filterMap.mp he
    cases hx : p.2 with
    | none => rw [hx] at hfp; simp at hfp
    | some id =>
      rw [hx] at hfp
      simp only [Option.map_some', Option.some.injEq] at hfp
      rw [← hfp]
      rfl
  case isFalse => simp at h

/-- Shape of a `start_up` loop run: `logic`, `specs` and `checks` are
untouched and every emitted effect is a `startChild`. -/
theorem start_up_go_shape (env : Env) (n : Nat) :
    ∀ (m : M) (index : Nat) (r : Except Crash Unit) (m2 : M) (t : List Effect),
    start_up_go env m index n = some (r, m2, t) →
    m2.logic = m.logic ∧ m2.specs = m.specs ∧ m2.checks = m.checks ∧
    ∀ e ∈ t, isStart e = true := by
  induction n with
  | zero =>
    intro m index r m2 t h
    simp only [start_up_go, Option.some.injEq, Prod.mk.injEq] at h
    obtain ⟨h1, h2, h3⟩ := h
    subst h2 h3
    exact ⟨rfl, rfl, rfl, by simp⟩
  | succ n ih =>
    intro m index r m2 t h
    simp only [start_up_go] at h
    cases hsl : start_link env m index with
    | none => rw [hsl] at h; simp at h
    | some v =>
      obtain ⟨rv, m1, t1⟩ := v
      obtain ⟨hm1, ht1⟩ := start_link_shape env m index rv m1 t1 hsl
      rw [hsl] at h
      cases rv with
      | error c =>
        simp only [Option.some.injEq, Prod.mk.injEq] at h
        obtain ⟨h1, h2, h3⟩ := h
        subst h2 h3
        subst hm1 ht1
        exact ⟨rfl, rfl, rfl, by intro e he; simp at he; simp [he, isStart]⟩
      | ok line =>
        simp only at h
        obtain ⟨⟨r2, m3, t2⟩, hrec, heq⟩ := Option.map_eq_some'.mp h
        simp only [Option.some.injEq, Prod.mk.injEq] at heq
        obtain ⟨h1, h2, h3⟩ := heq
        subst h2 h3
        obtain ⟨g1, g2, g3, g4⟩ := ih _ _ _ _ _ hrec
        subst hm1 ht1
        refine ⟨g1, by simpa using g2, by simpa using g3, ?_⟩
        intro e he
        rcases List.mem_append.mp he with h | h
        · simp at h; simp [h, isStart]
        · exact g4 e h

/-- Dispatch equation of `handle_restart` when the slot is live and the spec
exists: the slot is cleared first, then `specs[index].restart` selects the
action. -/
theorem handle_restart_dispatch (env : Env) (myId : DeviceID) (m : M) (index : Nat)
    (result : Option Fault) (id : DeviceID) (sp : Spec)
    (h1 : m.states.get? index = some (some id))
    (h2 : m.specs.get? index = some sp) :
    handle_restart env myId m index result =
      (match sp.restart with
       | .Never => some (.ok (), { m with states := m.states.set index none }, [])
       | .Always => restart env myId { m with states := m.states.set index none } index
       | .Failed =>
         if result.isSome then
           restart env myId { m with states := m.states.set index none } index
         else some (.ok (), { m with states := m.states.set index none }, [])) := by
  have h2' : ({ m with states := m.states.set index none } : M).specs.get? index = some sp := h2
  unfold handle_restart
  rw [h1]
  dsimp only
  rw [h2']

/-- C5.  Recovery dispatch on `specs[i].restart` for a terminated child found
at index `i`: `Never` leaves the slot `None`, emits nothing and continues
(`Ok`); `Failed` (the spec's `OnFailure`) restarts exactly when the
termination carried a fault and otherwise behaves as `Never`; `Always`
restarts unconditionally.  In the restarting cases the dispatch is exactly
`restart` on the state whose slot `i` has been cleared. -/
theorem c5_recovery_dispatch (env : Env) (myId : DeviceID) (m : M) (index : Nat)
    (result : Option Fault) (id : DeviceID) (sp : Spec)
    (h1 : m.states.get? index = some (some id))
    (h2 : m.specs.get? index = some sp) :
    (sp.restart = .Never →
      handle_restart env myId m index result =
        some (.ok (), { m with states := m.states.set index none }, []))
    ∧ (sp.restart = .Failed → result = none →
      handle_restart env myId m index result =
        some (.ok (), { m with states := m.states.set index none }, []))
    ∧ (sp.restart = .Failed → result.isSome = true →
      handle_restart env myId m index result =
        restart env myId { m with states := m.states.set index none } index)
    ∧ (sp.restart = .Always →
      handle_restart env myId m index result =
        restart env myId { m with states := m.states.set index none } index) := by
  have key := handle_restart_dispatch env myId m index result id sp h1 h2
  refine ⟨?_, ?_, ?_, ?_⟩
  · intro hr; rw [key, hr]
  · intro hr hres; rw [key, hr, hres]; rfl
  · intro hr hres; rw [key, hr]; simp [hres]
  · intro hr; rw [key, hr]

/-- Witness for C5: a terminated `Always` child at index 0 is dispatched to
`restart` on the cleared state. -/
theorem c5_witness :
    handle_restart envRun 3 mIso1 0 (some 0) =
      restart envRun 3 { mIso1 with states := mIso1.states.set 0 none } 0 :=
  (c5_recovery_dispatch envRun 3 mIso1 0 (some 0) 10
    ⟨.Always, .Gracefully .Forever⟩ rfl rfl).2.2.2 rfl

/-- C7.  When the limiter denies, `restart` fails with `Throttled` at once:
the result is exactly `Err(Crash::Error(Throttled))`, the states and specs
tables are unchanged (only the check counter moved), and the trace records
the one denied check — no `startChild`, no `sendShutdown`. -/
theorem c7_throttled_is_pure_failure (env : Env) (myId : DeviceID) (m : M) (index : Nat)
    (h : env.limiter m.checks = false) :
    restart env myId m index =
      some (.error (.Error .Throttled), { m with checks := m.checks + 1 }, [.check false])
    ∧ ({ m with checks := m.checks + 1 } : M).states = m.states
    ∧ ({ m with checks := m.checks + 1 } : M).specs = m.specs
    ∧ ([Effect.check false] : List Effect).filter isSend = []
    ∧ ([Effect.check false] : List Effect).filter isStart = [] := by
  refine ⟨?_, rfl, rfl, rfl, rfl⟩
  unfold restart
  rw [h]
  simp

/-- Witness for C7: a denied restart of `mIso1`'s child. -/
theorem c7_witness :
    restart envDeny 7 mIso1 0 =
      some (.error (.Error .Throttled), { mIso1 with checks := mIso1.checks + 1 },
        [.check false]) :=
  (c7_throttled_is_pure_failure envDeny 7 mIso1 0 rfl).1

/-- The teardown pass cannot panic when every live index it visits is within
`specs`' bounds. -/
theorem start_shut_down_go_isSome (specs : List Spec) (myId : DeviceID)
    (L : List (Nat × Option DeviceID))
    (h : ∀ p ∈ L, ∀ id, p.2 = some id → p.1 < specs.length) :
    start_shut_down_go specs myId L ≠ none := by
  induction L with
  | nil => simp [start_shut_down_go]
  | cons p rest ih =>
    obtain ⟨i, x⟩ := p
    cases x with
    | none =>
      simpa [start_shut_down_go] using
        ih (fun q hq => h q (List.mem_cons_of_mem _ hq))
    | some id =>
      have hi : i < specs.length := h (i, some id) (List.mem_cons_self _ _) id rfl
      have hsp : specs.get? i = some (specs.get ⟨i, hi⟩) := by
        rw [List.get?_eq_getElem?]
        exact List.getElem?_eq_getElem hi
      simp only [start_shut_down_go, hsp]
      intro hc
      exact ih (fun q hq => h q (List.mem_cons_of_mem _ hq)) (Option.map_eq_none'.mp hc)

/-- `shut_down` cannot panic when the drain start is in range and `states` is
no longer than `specs`. -/
theorem shut_down_isSome (myId : DeviceID) (m : M) (s : Nat)
    (hs : s ≤ m.states.length) (hlen : m.states.length ≤ m.specs.length) :
    shut_down myId m s ≠ none := by
  unfold shut_down
  rw [if_pos hs]
  intro hc
  refine start_shut_down_go_isSome _ _ _ ?_ (Option.map_eq_none'.mp hc)
  intro p hp id hpx
  rw [List.mem_reverse] at hp
  obtain ⟨i, x⟩ := p
  obtain ⟨hsi, hget⟩ := List.mk_mem_enumFrom_iff_le_and_getElem?_sub.mp hp
  subst hpx
  have hlt : i - s < (m.states.drop s).length := by
    have := List.getElem?_eq_some.mp hget
    exact this.1
  rw [List.length_drop] at hlt
  simp only at *
  omega

/-- `start_link` cannot panic when the index is within `specs`' bounds. -/
theorem start_link_isSome (env : Env) (m : M) (index : Nat)
    (h : index < m.specs.length) : start_link env m index ≠ none := by
  have hsp : m.specs.get? index = some (m.specs.get ⟨index, h⟩) := by
    rw [List.get?_eq_getElem?]
    exact List.getElem?_eq_getElem h
  unfold start_link
  rw [hsp]
  cases env.startResults m.starts with
  | error e => simp
  | ok st => cases st <;> simp

/-- The `start_up` loop cannot panic when it stays within `specs`' bounds. -/
theorem start_up_go_isSome (env : Env) (n : Nat) :
    ∀ (m : M) (index : Nat), index + n ≤ m.specs.length →
    start_up_go env m index n ≠ none := by
  induction n with
  | zero => intro m index h; simp [start_up_go]
  | succ n ih =>
    intro m index h
    have hidx : index < m.specs.length := by omega
    cases hsl : start_link env m index with
    | none => exact absurd hsl (start_link_isSome env m index hidx)
    | some v =>
      obtain ⟨rv, m1, t1⟩ := v
      obtain ⟨hm1, ht1⟩ := start_link_shape env m index rv m1 t1 hsl
      simp only [start_up_go, hsl]
      cases rv with
      | error c => simp
      | ok line =>
        simp only
        intro hc
        refine ih _ (index + 1) ?_ (Option.map_eq_none'.mp hc)
        subst hm1
        show index + 1 + n ≤ m.specs.length
        omega

/-- `restart` cannot panic when the restarted index is a valid `states` index
and `states` is no longer than `specs`. -/
theorem restart_isSome (env : Env) (myId : DeviceID) (m : M) (index : Nat)
    (hidx : index < m.states.length) (hlen : m.states.length ≤ m.specs.length) :
    restart env myId m index ≠ none := by
  obtain ⟨lg, specs, states, starts, checks⟩ := m
  simp only at hidx hlen
  unfold restart
  cases hl : env.limiter checks with
  | false => simp
  | true =>
    simp only [if_true]
    cases lg with
    | Isolated =>
      have hspec : index <
          ({ logic := .Isolated, specs := specs, states := states, starts := starts,
             checks := checks + 1 } : M).specs.length := by
        show index < specs.length
        omega
      cases hsl : start_link env
          { logic := .Isolated, specs := specs, states := states, starts := starts,
            checks := checks + 1 } index with
      | none => exact absurd hsl (start_link_isSome _ _ _ hspec)
      | some v =>
        obtain ⟨rv, m1, t1⟩ := v
        obtain ⟨hm1, ht1⟩ := start_link_shape _ _ _ _ _ _ hsl
        simp only [hsl]
        cases rv with
        | ok line =>
          have hlt : index < m1.states.length := by
            subst hm1
            exact hidx
          dsimp only
          rw [if_pos hlt]
          simp
        | error c =>
          dsimp only
          intro hc
          refine shut_down_isSome myId m1 0 (Nat.zero_le _) ?_ (Option.map_eq_none'.mp hc)
          subst hm1
          exact hlen
    | CascadeNewer =>
      cases hsd : shut_down myId
          { logic := .CascadeNewer, specs := specs, states := states, starts := starts,
            checks := checks + 1 } (index + 1) with
      | none => exact absurd hsd (shut_down_isSome _ _ _ (by simpa using hidx) hlen)
      | some v =>
        obtain ⟨m1, t1⟩ := v
        obtain ⟨hm1, hs1, hsend⟩ := shut_down_shape _ _ _ _ _ hsd
        simp only [hsd]
        intro hc
        refine start_up_go_isSome env _ m1 index ?_ (Option.map_eq_none'.mp hc)
        subst hm1
        show index + (specs.length - index) ≤ specs.length
        omega
    | CascadeAll =>
      cases hsd : shut_down myId
          { logic := .CascadeAll, specs := specs, states := states, starts := starts,
            checks := checks + 1 } 0 with
      | none => exact absurd hsd (shut_down_isSome _ _ _ (Nat.zero_le _) hlen)
      | some v =>
        obtain ⟨m1, t1⟩ := v
        obtain ⟨hm1, hs1, hsend⟩ := shut_down_shape _ _ _ _ _ hsd
        simp only [hsd]
        intro hc
        refine start_up_go_isSome env _ m1 0 ?_ (Option.map_eq_none'.mp hc)
        subst hm1
        show 0 + (specs.length - 0) ≤ specs.length
        omega

/-- C9.  A `Terminated(id, fault)` (backplane `Disconnected`) event with no
matching live slot is ignored: the watch loop continues (`Ok`) with the whole
supervisor state — `specs`, `states` and the limiter counter — unchanged and
no effect emitted.  When the scan finds index `i`, the slot held `Some id`,
it is cleared to `None` first, and only then is recovery dispatched on
`specs[i].restart`. -/
theorem c9_stale_ignored_match_cleared (env : Env) (myId : DeviceID) (m : M)
    (id : DeviceID) (result : Option Fault) :
    (some id ∉ m.states →
      disconnected env myId m id result = some (.ok (), m, []))
    ∧ (∀ i sp, matchIndex m.states id = some i → m.specs.get? i = some sp →
        m.states.get? i = some (some id) ∧
        disconnected env myId m id result =
          (match sp.restart with
           | .Never => some (.ok (), { m with states := m.states.set i none }, [])
           | .Always => restart env myId { m with states := m.states.set i none } i
           | .Failed =>
             if result.isSome then
               restart env myId { m with states := m.states.set i none } i
             else some (.ok (), { m with states := m.states.set i none }, []))) := by
  constructor
  · intro hnot
    have hnone : matchIndex m.states id = none := by
      unfold matchIndex
      rw [List.findIdx?_eq_none_iff]
      intro x hx
      exact beq_eq_false_iff_ne.mpr (fun hxe => hnot (hxe ▸ hx))
    unfold disconnected
    rw [hnone]
  · intro i sp hi hsp
    obtain ⟨a, ha, hpa⟩ := findIdx?_some_get _ _ _ hi
    have ha' : m.states.get? i = some (some id) := by
      rw [ha]
      exact congrArg some (beq_iff_eq.mp hpa)
    refine ⟨ha', ?_⟩
    unfold disconnected
    rw [hi]
    exact handle_restart_dispatch env myId m i result id sp ha' hsp

/-- Witness for C9: a stale id `99` is ignored with no state change, and the
live id `10` at index 0 is cleared and dispatched to its `Always` restart. -/
theorem c9_witness :
    disconnected envRun 3 mIso1 99 none = some (.ok (), mIso1, [])
    ∧ disconnected envRun 3 mIso1 10 none =
        restart envRun 3 { mIso1 with states := mIso1.states.set 0 none } 0 := by
  constructor
  · exact (c9_stale_ignored_match_cleared envRun 3 mIso1 99 none).1 (by decide)
  · exact ((c9_stale_ignored_match_cleared envRun 3 mIso1 10 none).2 0
      ⟨.Always, .Gracefully .Forever⟩ rfl rfl).2

/-- C10.  The `take().unwrap()` of `handle_restart` cannot panic:
`disconnected` only invokes it at an index produced by the scan, and any such
index holds `Some id` — so the slot is live when taken.  Moreover, as long as
`states` is no longer than `specs` (the well-formed regime), the whole
`disconnected` call is panic-free. -/
theorem c10_take_never_panics (env : Env) (myId : DeviceID) (m : M)
    (id : DeviceID) (result : Option Fault) (i : Nat)
    (h : matchIndex m.states id = some i) :
    m.states.get? i = some (some id)
    ∧ (m.states.length ≤ m.specs.length →
        disconnected env myId m id result ≠ none) := by
  obtain ⟨a, ha, hpa⟩ := findIdx?_some_get _ _ _ h
  have ha' : m.states.get? i = some (some id) := by
    rw [ha]
    exact congrArg some (beq_iff_eq.mp hpa)
  refine ⟨ha', ?_⟩
  intro hlen
  have hi_lt : i < m.states.length := by
    rw [List.get?_eq_getElem?] at ha'
    exact (List.getElem?_eq_some.mp ha').1
  have hsp : m.specs.get? i = some (m.specs.get ⟨i, lt_of_lt_of_le hi_lt hlen⟩) := by
    rw [List.get?_eq_getElem?]
    exact List.getElem?_eq_getElem _
  unfold disconnected
  rw [h]
  show handle_restart env myId m i result ≠ none
  rw [handle_restart_dispatch env myId m i result id _ ha' hsp]
  have hset_len : i < (m.states.set i none).length := by simpa using hi_lt
  have hset_le : (m.states.set i none).length ≤ m.specs.length := by simpa using hlen
  cases hr : (m.specs.get ⟨i, lt_of_lt_of_le hi_lt hlen⟩).restart with
  | Never => simp
  | Always =>
    exact restart_isSome env myId { m with states := m.states.set i none } i hset_len hset_le
  | Failed =>
    cases hres : result.isSome with
    | true =>
      exact restart_isSome env myId { m with states := m.states.set i none } i hset_len hset_le
    | false => simp

/-- Witness for C10: the scan of `mIso1` for id `10` yields index 0, whose
slot is live, and the dispatch is panic-free. -/
theorem c10_witness :
    mIso1.states.get? 0 = some (some 10)
    ∧ disconnected envRun 3 mIso1 10 none ≠ none :=
  ⟨(c10_take_never_panics envRun 3 mIso1 10 none 0 rfl).1,
   (c10_take_never_panics envRun 3 mIso1 10 none 0 rfl).2 (by decide)⟩

/-- A trace of teardown sends contains no limiter check. -/
theorem sends_filter_check (t : List Effect) (h : ∀ e ∈ t, isSend e = true) :
    t.filter isCheck = [] := by
  rw [List.filter_eq_nil_iff]
  intro e he
  have := h e he
  cases e <;> simp_all [isSend, isCheck]

/-- A trace of start invocations contains no limiter check. -/
theorem starts_filter_check (t : List Effect) (h : ∀ e ∈ t, isStart e = true) :
    t.filter isCheck = [] := by
  rw [List.filter_eq_nil_iff]
  intro e he
  have := h e he
  cases e <;> simp_all [isStart, isCheck]

/-- C8.  Every `restart` invocation performs exactly one limiter check: the
trace starts with the single `check` effect (hence it precedes every
`sendShutdown` of a cascading teardown), no later effect is a check (in
particular the cascade's whole `start_up` re-checks nothing), and the check
counter advances by exactly one — also in the invocation that trips
`Throttled`. -/
theorem c8_exactly_one_check (env : Env) (myId : DeviceID) (m : M) (index : Nat)
    (r : Except Crash Unit) (m2 : M) (t : List Effect)
    (h : restart env myId m index = some (r, m2, t)) :
    (∃ t2, t = Effect.check (env.limiter m.checks) :: t2 ∧ t2.filter isCheck = [])
    ∧ m2.checks = m.checks + 1 := by
  obtain ⟨lg, specs, states, starts, checks⟩ := m
  simp only at h ⊢
  unfold restart at h
  cases hl : env.limiter checks with
  | false =>
    rw [hl] at h
    simp only [Bool.false_eq_true, if_false, Option.some.injEq, Prod.mk.injEq] at h
    obtain ⟨h1, h2, h3⟩ := h
    subst h2 h3
    exact ⟨⟨[], by simp [hl], rfl⟩, rfl⟩
  | true =>
    rw [hl] at h
    simp only [if_true] at h
    cases lg with
    | Isolated =>
      cases hsl : start_link env
          { logic := .Isolated, specs := specs, states := states, starts := starts,
            checks := checks + 1 } index with
      | none => rw [hsl] at h; exact absurd h (by simp)
      | some v =>
        obtain ⟨rv, m1, t1⟩ := v
        obtain ⟨hm1, ht1⟩ := start_link_shape _ _ _ _ _ _ hsl
        rw [hsl] at h
        cases rv with
        | ok line =>
          simp only at h
          split at h
          · simp only [Option.some.injEq, Prod.mk.injEq] at h
            obtain ⟨h1, h2, h3⟩ := h
            subst h2 h3
            refine ⟨⟨t1, by simp [hl], by subst ht1; simp [isCheck]⟩, ?_⟩
            subst hm1
            rfl
          · exact absurd h (by simp)
        | error c =>
          simp only at h
          obtain ⟨⟨m3, t3⟩, hsd, heq⟩ := Option.map_eq_some'.mp h
          simp only [Option.some.injEq, Prod.mk.injEq] at heq
          obtain ⟨h1, h2, h3⟩ := heq
          subst h2 h3
          obtain ⟨hm3, hs3, hsend3⟩ := shut_down_shape _ _ _ _ _ hsd
          refine ⟨⟨t1 ++ t3, by simp [hl], ?_⟩, ?_⟩
          · rw [List.filter_append, sends_filter_check t3 hsend3]
            subst ht1
            simp [isCheck]
          · subst hm3 hm1
            rfl
    | CascadeNewer =>
      cases hsd : shut_down myId
          { logic := .CascadeNewer, specs := specs, states := states, starts := starts,
            checks := checks + 1 } (index + 1) with
      | none => rw [hsd] at h; exact absurd h (by simp)
      | some v =>
        obtain ⟨m1, t1⟩ := v
        obtain ⟨hm1, hs1, hsend1⟩ := shut_down_shape _ _ _ _ _ hsd
        rw [hsd] at h
        simp only at h
        obtain ⟨⟨r2, m3, t2⟩, hsu, heq⟩ := Option.map_eq_some'.mp h
        simp only [Option.some.injEq, Prod.mk.injEq] at heq
        obtain ⟨h1, h2, h3⟩ := heq
        subst h2 h3
        obtain ⟨g1, g2, g3, g4⟩ := start_up_go_shape env _ _ _ _ _ _ hsu
        refine ⟨⟨t1 ++ t2, by simp [hl], ?_⟩, ?_⟩
        · rw [List.filter_append, sends_filter_check t1 hsend1,
            starts_filter_check t2 g4]
          rfl
        · rw [g3]
          subst hm1
          rfl
    | CascadeAll =>
      cases hsd : shut_down myId
          { logic := .CascadeAll, specs := specs, states := states, starts := starts,
            checks := checks + 1 } 0 with
      | none => rw [hsd] at h; exact absurd h (by simp)
      | some v =>
        obtain ⟨m1, t1⟩ := v
        obtain ⟨hm1, hs1, hsend1⟩ := shut_down_shape _ _ _ _ _ hsd
        rw [hsd] at h
        simp only at h
        obtain ⟨⟨r2, m3, t2⟩, hsu, heq⟩ := Option.map_eq_some'.mp h
        simp only [Option.some.injEq, Prod.mk.injEq] at heq
        obtain ⟨h1, h2, h3⟩ := heq
        subst h2 h3
        obtain ⟨g1, g2, g3, g4⟩ := start_up_go_shape env _ _ _ _ _ _ hsu
        refine ⟨⟨t1 ++ t2, by simp [hl], ?_⟩, ?_⟩
        · rw [List.filter_append, sends_filter_check t1 hsend1,
            starts_filter_check t2 g4]
          rfl
        · rw [g3]
          subst hm1
          rfl

/-- Witness for C8: an admitted `Isolated` restart performs exactly the one
check at the head of its trace. -/
theorem c8_witness :
    (∃ t2, ([Effect.check true, Effect.startChild 0 101] : List Effect) =
        Effect.check (envRun.limiter mIso1.checks) :: t2 ∧ t2.filter isCheck = [])
    ∧ ({ mIso1 with states := [some 101], starts := 2, checks := 1 } : M).checks =
        mIso1.checks + 1 :=
  c8_exactly_one_check envRun 3 mIso1 0 (.ok ())
    { mIso1 with states := [some 101], starts := 2, checks := 1 }
    [Effect.check true, Effect.startChild 0 101] (by decide)

/-- `sentIndices` of a teardown-send trace recovers the iterated indices of
the live entries, in iteration order. -/
theorem sentIndices_go (myId : DeviceID) (L : List (Nat × Option DeviceID)) :
    sentIndices (L.filterMap (fun p => p.2.map fun id => Effect.sendShutdown p.1 id myId)) =
      L.filterMap (fun p => p.2.map fun _ => p.1) := by
  induction L with
  | nil => rfl
  | cons p rest ih =>
    obtain ⟨i, x⟩ := p
    cases x with
    | none => simpa [List.filterMap_cons] using ih
    | some id =>
      unfold sentIndices at ih ⊢
      simp [List.filterMap_cons, ih]

/-- The live indices kept from an enumerated list form a sublist of all its
indices. -/
theorem keepIdx_sublist (L : List (Nat × Option DeviceID)) :
    List.Sublist (L.filterMap (fun p => p.2.map fun _ => p.1)) (L.map Prod.fst) := by
  induction L with
  | nil => simp
  | cons p rest ih =>
    obtain ⟨i, x⟩ := p
    cases x with
    | none =>
      simp only [List.filterMap_cons, Option.map_none', List.map_cons]
      exact ih.cons _
    | some id =>
      simp only [List.filterMap_cons, Option.map_some', List.map_cons]
      exact ih.cons₂ _

/-- C6.  `shut_down(from)` dispatches its `Shutdown` messages in strictly
decreasing index order (newest first): the sent indices are pairwise
decreasing along the trace, and they are exactly the live indices of
`states[from..]` — so for any two live children at `j > k ≥ from`, index `j`
is messaged before index `k`. -/
theorem c6_reverse_teardown_order (myId : DeviceID) (m : M) (s : Nat) (m2 : M)
    (t : List Effect) (h : shut_down myId m s = some (m2, t)) :
    List.Pairwise (· > ·) (sentIndices t)
    ∧ ∀ i, (i ∈ sentIndices t ↔ s ≤ i ∧ ∃ id, m.states.get? i = some (some id)) := by
  unfold shut_down at h
  split at h
  case isFalse => exact absurd h (by simp)
  case isTrue hs =>
  obtain ⟨t0, hgo, heq⟩ := Option.map_eq_some'.mp h
  simp only [Prod.mk.injEq] at heq
  obtain ⟨hm2, ht⟩ := heq
  subst ht
  have hteq := start_shut_down_go_eq _ _ _ _ hgo
  subst hteq
  rw [sentIndices_go, List.filterMap_reverse]
  constructor
  · rw [List.pairwise_reverse]
    have hp : List.Pairwise (· < ·)
        ((List.enumFrom s (m.states.drop s)).map Prod.fst) := by
      rw [List.enumFrom_map_fst]
      exact List.pairwise_lt_range' s (m.states.drop s).length
    exact List.Pairwise.sublist (keepIdx_sublist _) hp
  · intro i
    rw [List.mem_reverse, List.mem_filterMap]
    constructor
    · rintro ⟨⟨j, x⟩, hmem, hform⟩
      cases x with
      | none => simp at hform
      | some id =>
        simp only [Option.map_some', Option.some.injEq] at hform
        subst hform
        obtain ⟨hsi, hget⟩ := List.mk_mem_enumFrom_iff_le_and_getElem?_sub.mp hmem
        refine ⟨hsi, id, ?_⟩
        rw [List.getElem?_drop] at hget
        have harith : s + (j - s) = j := by omega
        rw [harith] at hget
        rw [List.get?_eq_getElem?]
        exact hget
    · rintro ⟨hsi, id, hget⟩
      refine ⟨(i, some id), ?_, rfl⟩
      rw [List.mk_mem_enumFrom_iff_le_and_getElem?_sub]
      refine ⟨hsi, ?_⟩
      rw [List.getElem?_drop]
      have harith : s + (i - s) = i := by omega
      rw [harith]
      rw [List.get?_eq_getElem?] at hget
      exact hget

/-- Witness for C6: tearing `mW6` down from index 0 messages index 2 before
index 0, and index 2 is reported live. -/
theorem c6_witness :
    List.Pairwise (· > ·)
      (sentIndices [Effect.sendShutdown 2 7 9, Effect.sendShutdown 0 5 9])
    ∧ (2 ∈ sentIndices [Effect.sendShutdown 2 7 9, Effect.sendShutdown 0 5 9] ↔
        0 ≤ 2 ∧ ∃ id, mW6.states.get? 2 = some (some id)) := by
  have h := c6_reverse_teardown_order 9 mW6 0 { mW6 with states := [] }
    [Effect.sendShutdown 2 7 9, Effect.sendShutdown 0 5 9] (by decide)
  exact ⟨h.1, h.2 2⟩
